import Mathlib

/-
Verification of the april-core provider abstraction and wire-protocol layer.

Shallow embedding of the Rust sources:
  src/lib.rs              -- Image, Message, Display impls, LanguageModel facade
  src/error.rs            -- Error enum
  src/model.rs            -- LanguageModelPrompt, LanguageModel trait
  src/model/anthropic.rs  -- wire types, custom Deserialize, create, inference

Bytes are modelled as Nat with an explicit < 256 bound where it matters.
Network effects are modelled by passing the outcome of the transport
round-trip as an explicit value.  base64 is modelled concretely
(standard alphabet with canonical padding, as the BASE64_STANDARD engine
of the base64 crate), so every definition is executable.
-/

namespace AprilCore

/-- Standard base64 alphabet, models base64::alphabet::STANDARD. -/
def b64Alphabet : List Char :=
  ['A','B','C','D','E','F','G','H','I','J','K','L','M','N','O','P',
   'Q','R','S','T','U','V','W','X','Y','Z',
   'a','b','c','d','e','f','g','h','i','j','k','l','m','n','o','p',
   'q','r','s','t','u','v','w','x','y','z',
   '0','1','2','3','4','5','6','7','8','9','+','/']

/-- Sextet value to alphabet character (total, default 'A' outside 0..63). -/
def encodeChar (n : Nat) : Char := b64Alphabet.getD n 'A'

/-- Alphabet character back to its sextet value; none for characters outside
the alphabet (including the padding character). -/
def decodeChar (c : Char) : Option Nat := b64Alphabet.indexOf? c

/-- Encode a byte list three bytes at a time into base64 characters with
canonical padding, as BASE64_STANDARD.encode does. -/
def base64EncodeChunks : List Nat → List Char
  | [] => []
  | [a] => [encodeChar (a / 4), encodeChar (a % 4 * 16), '=', '=']
  | [a, b] => [encodeChar (a / 4), encodeChar (a % 4 * 16 + b / 16),
               encodeChar (b % 16 * 4), '=']
  | a :: b :: c :: rest =>
      encodeChar (a / 4) :: encodeChar (a % 4 * 16 + b / 16) ::
      encodeChar (b % 16 * 4 + c / 64) :: encodeChar (c % 64) ::
      base64EncodeChunks rest

/-- Decode base64 characters four at a time, requiring canonical padding and
zero trailing bits, as BASE64_STANDARD.decode does; none on any invalid
symbol, length or padding. -/
def base64DecodeChunks : List Char → Option (List Nat)
  | [] => some []
  | c1 :: c2 :: c3 :: c4 :: rest =>
    (decodeChar c1).bind fun s1 =>
    (decodeChar c2).bind fun s2 =>
    if c3 = '=' then
      if c4 = '=' && rest.isEmpty && s2 % 16 == 0 then
        some [s1 * 4 + s2 / 16]
      else none
    else
      (decodeChar c3).bind fun s3 =>
      if c4 = '=' then
        if rest.isEmpty && s3 % 4 == 0 then
          some [s1 * 4 + s2 / 16, s2 % 16 * 16 + s3 / 4]
        else none
      else
        (decodeChar c4).bind fun s4 =>
        (base64DecodeChunks rest).map fun tl =>
          (s1 * 4 + s2 / 16) :: (s2 % 16 * 16 + s3 / 4) :: (s3 % 4 * 64 + s4) :: tl
  | _ => none

/-- Models BASE64_STANDARD.encode on a byte vector. -/
def base64Encode (bs : List Nat) : String := String.mk (base64EncodeChunks bs)

/-- Models BASE64_STANDARD.decode collapsed to Option, the way every use in
the sources immediately applies .ok() / discards the error payload. -/
def base64Decode (s : String) : Option (List Nat) := base64DecodeChunks s.data

/-- Image from src/lib.rs: a media type plus raw bytes. -/
structure Image where
  media_type : String
  data : List Nat
deriving DecidableEq, Repr

/-- Display for Image from src/lib.rs: write!(f, "data:{};base64, {}", ...).
Note the space after the comma in the source format string. -/
def Image.display (i : Image) : String :=
  "data:" ++ i.media_type ++ ";base64, " ++ base64Encode i.data

/-- Message from src/lib.rs. -/
inductive Message where
  | Image (image : Image)
  | Text (text : String)
deriving DecidableEq, Repr

/-- Display for Message from src/lib.rs. -/
def Message.display : Message → String
  | .Image image => image.display
  | .Text text => text

/-- Error from src/error.rs.  ImageDecode carries the base64::DecodeError
rendered as a string, Unexpected carries the anyhow::Error message. -/
inductive Error where
  | ImageDecode (err : String)
  | ModelResponse (msg : String)
  | Unexpected (msg : String)
deriving DecidableEq, Repr

/-- True exactly when an inference result is an ImageDecode error. -/
def errIsImageDecode : Except Error Message → Bool
  | .error (.ImageDecode _) => true
  | _ => false

/-- AnthropicErrorResponse from src/model/anthropic.rs: the error envelope. -/
structure AnthropicErrorResponse where
  error_type : String
  message : String
deriving DecidableEq, Repr

/-- AnthropicImageContent from src/model/anthropic.rs: wire image block. -/
structure AnthropicImageContent where
  encoding : String
  media_type : String
  data : String
deriving DecidableEq, Repr

/-- AnthropicImageContent::new, which fixes encoding to "base64". -/
def AnthropicImageContent.new (media_type : String) (data : String) :
    AnthropicImageContent :=
  { encoding := "base64", media_type := media_type, data := data }

/-- AnthropicImageContent::data(): decode the embedded base64 payload,
collapsing the decode Result to Option with .ok() as the source does. -/
def AnthropicImageContent.decodeData (c : AnthropicImageContent) :
    Option (List Nat) :=
  base64Decode c.data

/-- From AnthropicImageContent for Image in src/model/anthropic.rs:
encode the raw bytes into the wire block. -/
def AnthropicImageContent.fromImage (image : Image) : AnthropicImageContent :=
  AnthropicImageContent.new image.media_type (base64Encode image.data)

/-- AnthropicContent from src/model/anthropic.rs: tagged wire content block. -/
inductive AnthropicContent where
  | Image (source : AnthropicImageContent)
  | Text (text : String)
deriving DecidableEq, Repr

/-- AnthropicUsage from src/model/anthropic.rs. -/
structure AnthropicUsage where
  input_tokens : Nat
  output_tokens : Nat
deriving DecidableEq, Repr

/-- AnthropicMessageResponse from src/model/anthropic.rs: the successful
message envelope. -/
structure AnthropicMessageResponse where
  id : String
  model : String
  role : String
  stop_reason : String
  stop_sequence : Option String
  usage : AnthropicUsage
  content : List AnthropicContent
deriving DecidableEq, Repr

/-- AnthropicResponse from src/model/anthropic.rs: the tagged union over
the error envelope and the message envelope. -/
inductive AnthropicResponse where
  | Error (error : AnthropicErrorResponse)
  | Message (m : AnthropicMessageResponse)
deriving DecidableEq, Repr

/-- AnthropicMessageContent from src/model/anthropic.rs: either a single
inline content block or a list of blocks (untagged on the wire). -/
inductive AnthropicMessageContent where
  | Single (c : AnthropicContent)
  | Multiple (cs : List AnthropicContent)
deriving DecidableEq, Repr

/-- The content blocks a wire message content value holds, in order. -/
def AnthropicMessageContent.blocks : AnthropicMessageContent → List AnthropicContent
  | .Single c => [c]
  | .Multiple cs => cs

/-- AnthropicMessage from src/model/anthropic.rs: one request turn. -/
structure AnthropicMessage where
  role : String
  content : AnthropicMessageContent
deriving DecidableEq, Repr

/-- Debug rendering of an optional string, as derive(Debug) would produce.
Unused by any claim; string escaping is not modelled. -/
def debugOptString : Option String → String
  | none => "None"
  | some s => "Some(\"" ++ s ++ "\")"

/-- Debug rendering of AnthropicImageContent (derive(Debug) shape). -/
def AnthropicImageContent.debugFmt (c : AnthropicImageContent) : String :=
  "AnthropicImageContent \x7b encoding: \"" ++ c.encoding ++
  "\", media_type: \"" ++ c.media_type ++ "\", data: \"" ++ c.data ++ "\" \x7d"

/-- Debug rendering of AnthropicContent (derive(Debug) shape). -/
def AnthropicContent.debugFmt : AnthropicContent → String
  | .Image source => "Image \x7b source: " ++ source.debugFmt ++ " \x7d"
  | .Text text => "Text \x7b text: \"" ++ text ++ "\" \x7d"

/-- Debug rendering of AnthropicMessageResponse (derive(Debug) shape),
used only by the non-200 branch of create when the body is a message. -/
def AnthropicMessageResponse.debugFmt (m : AnthropicMessageResponse) : String :=
  "AnthropicMessageResponse \x7b id: \"" ++ m.id ++ "\", model: \"" ++ m.model ++
  "\", role: \"" ++ m.role ++ "\", stop_reason: \"" ++ m.stop_reason ++
  "\", stop_sequence: " ++ debugOptString m.stop_sequence ++
  ", usage: AnthropicUsage \x7b input_tokens: " ++ toString m.usage.input_tokens ++
  ", output_tokens: " ++ toString m.usage.output_tokens ++ " \x7d, content: [" ++
  String.intercalate (", ") (m.content.map AnthropicContent.debugFmt) ++ "] \x7d"

/-- Display rendering of a status code; models format!("{}", status_code).
Unused by any claim; the canonical reason phrase is not modelled. -/
def statusFmt (status : Nat) : String := toString status

/-- Request shaping of AnthropicModel::create (lines 428-436): start from the
prior conversation, if any, then collapse the new content by count: nothing
when empty, one user message with a single inline block when exactly one,
one user message with a list block otherwise. -/
def createRequestMessages (messages : List AnthropicContent)
    (conversation : Option (List AnthropicMessage)) : List AnthropicMessage :=
  let base : List AnthropicMessage :=
    match conversation with
    | some conv => conv
    | none => []
  match messages with
  | [] => base
  | [m] => base ++ [{ role := "user", content := .Single m }]
  | ms => base ++ [{ role := "user", content := .Multiple ms }]

/-- Outcome of decoding a response body as AnthropicResponse. -/
inductive BodyDecode where
  | ok (r : AnthropicResponse)
  | err (msg : String)
deriving DecidableEq, Repr

/-- Outcome of the HTTPS round-trip of the direct-API path of create:
either the send() failed (with its Display message) or a status code came
back together with the result of decoding the body. -/
inductive HttpOutcome where
  | err (msg : String)
  | ok (status : Nat) (body : BodyDecode)
deriving DecidableEq, Repr

/-- Response classification of the direct-API arm of AnthropicModel::create
(lines 461-480): status 200 takes the decoded envelope as is, client and
server error statuses mine the body for an error envelope, any other status
is an invalid_status_error, and a transport failure is a request_error. -/
def createClassify : HttpOutcome → Except AnthropicErrorResponse AnthropicMessageResponse
  | .err msg => .error { error_type := "request_error", message := msg }
  | .ok status body =>
    if status == 200 then
      match body with
      | .ok (.Error e) => .error e
      | .ok (.Message m) => .ok m
      | .err msg => .error { error_type := "invalid_response_error", message := msg }
    else if 400 ≤ status && status < 600 then
      match body with
      | .ok (.Error e) => .error e
      | .ok (.Message m) =>
          .error { error_type := "invalid_response_error", message := m.debugFmt }
      | .err msg => .error { error_type := "invalid_response_error", message := msg }
    else .error { error_type := "invalid_status_error", message := statusFmt status }

/-- Outcome of the invoke_model call of the bedrock arm of create. -/
inductive BedrockOutcome where
  | err (msg : String)
  | ok (body : BodyDecode)
deriving DecidableEq, Repr

/-- Response classification of the bedrock arm of AnthropicModel::create
(lines 504-513): an SDK failure is a bedrock_sdk_error, otherwise the body
decode result is classified like the direct path at status 200. -/
def bedrockClassify : BedrockOutcome → Except AnthropicErrorResponse AnthropicMessageResponse
  | .err msg => .error { error_type := "bedrock_sdk_error", message := msg }
  | .ok (.ok (.Error e)) => .error e
  | .ok (.ok (.Message m)) => .ok m
  | .ok (.err msg) => .error { error_type := "invalid_response_error", message := msg }

/-- Content blocks AnthropicModel::inference builds (lines 522-526): the
optional image first, then the prompt text. -/
def inferenceContent (prompt : String) (image : Option Image) :
    List AnthropicContent :=
  (match image with
   | some img => [AnthropicContent.Image (AnthropicImageContent.fromImage img)]
   | none => []) ++ [AnthropicContent.Text prompt]

/-- First-content extraction of AnthropicModel::inference (lines 532-541):
take the first content block; a text block maps directly, an image block is
decoded, with a decode failure collapsed to none by .ok(). -/
def firstContentMessage (content : List AnthropicContent) : Option Message :=
  content.head?.bind fun c =>
    match c with
    | .Image source =>
        (base64Decode source.data).map fun data =>
          Message.Image { media_type := source.media_type, data := data }
    | .Text text => some (Message.Text text)

/-- Result classification of AnthropicModel::inference (lines 528-551):
on a successful envelope, the first content block becomes the Message, an
absent or undecodable first block becomes Unexpected("no-content"); any
error envelope from create becomes ModelResponse with its message. -/
def inferenceClassify (res : Except AnthropicErrorResponse AnthropicMessageResponse) :
    Except Error Message :=
  match res with
  | .ok m =>
    match firstContentMessage m.content with
    | some msg => .ok msg
    | none => .error (.Unexpected ("no-content"))
  | .error err => .error (.ModelResponse err.message)

/-- AnthropicModel::inference of the direct-API path, as a function of the
prompt arguments and the transport outcome: build the content blocks, call
create, classify the result.  The blocks only shape the outgoing request,
so the returned value is the classification of the outcome. -/
def inference (prompt : String) (image : Option Image) (outcome : HttpOutcome) :
    Except Error Message :=
  inferenceClassify (createClassify outcome)

/-- AwsConfig from src/model/bedrock.rs: a named profile or an explicit
credential triple. -/
inductive AwsConfig where
  | Profile (profile_name : String) (region : Option String)
  | Credential (access_key : Option String) (secret_key : Option String)
      (region : Option String)
deriving DecidableEq, Repr

/-- AnthropicModel from src/model/anthropic.rs: the two backend variants.
Temperatures are rationals standing in for f32 values that are only ever
stored and carried verbatim; the transport client fields are derived,
non-serialized resources and are not part of the configuration data. -/
inductive AnthropicModel where
  | Anthropic (api_key api_version model : String) (max_tokens : Nat)
      (temperature : Rat) (stop_sequences : List String) (system : Option String)
  | Bedrock (aws_config : Option AwsConfig) (api_version model : String)
      (max_tokens : Nat) (temperature : Rat) (stop_sequences : List String)
      (system : Option String)
deriving DecidableEq, Repr

/-- The field identifiers recognised by the custom Deserialize
implementation of AnthropicModel. -/
inductive FieldKey where
  | apiKey | awsConfig | apiVersion | model | maxTokens | temperature
  | stopSequences | system
deriving DecidableEq, Repr

/-- One key/value entry of a declared configuration map, with the value
already carrying the type next_value would produce. -/
inductive ConfigField where
  | apiKey (v : String)
  | awsConfig (v : AwsConfig)
  | apiVersion (v : String)
  | model (v : String)
  | maxTokens (v : Nat)
  | temperature (v : Rat)
  | stopSequences (v : List String)
  | system (v : String)
deriving DecidableEq, Repr

/-- The field identifier a configuration entry carries. -/
def ConfigField.key : ConfigField → FieldKey
  | .apiKey _ => .apiKey
  | .awsConfig _ => .awsConfig
  | .apiVersion _ => .apiVersion
  | .model _ => .model
  | .maxTokens _ => .maxTokens
  | .temperature _ => .temperature
  | .stopSequences _ => .stopSequences
  | .system _ => .system

/-- The accumulator of AnthropicModelVisitor::visit_map (lines 245-254). -/
structure VisitState where
  api_version : Option String := none
  model : Option String := none
  max_tokens : Option Nat := none
  temperature : Option Rat := none
  stop_sequences : Option (List String) := none
  system : Option String := none
  api_key : Option String := none
  aws_config : Option AwsConfig := none
deriving DecidableEq, Repr

/-- The mutual-exclusivity validation message of visit_map. -/
def mutualMsg : String := "both `api_key` and `aws_config` should not be present"

/-- One iteration of the visit_map key loop (lines 256-313), modelled with
the aws-bedrock feature enabled so both backend variants exist (the spec
covers both).  Field-order-sensitive: api_key rejects when aws_config was
already seen and vice versa, every field rejects its own duplicate. -/
def visitStep (st : VisitState) : ConfigField → Except String VisitState
  | .apiKey v =>
    if st.aws_config.isSome then .error mutualMsg
    else if st.api_key.isSome then .error ("duplicate field `api_key`")
    else .ok { st with api_key := some v }
  | .awsConfig v =>
    if st.api_key.isSome then .error mutualMsg
    else if st.aws_config.isSome then .error ("duplicate field `aws_config`")
    else .ok { st with aws_config := some v }
  | .apiVersion v =>
    if st.api_version.isSome then .error ("duplicate field `api_version`")
    else .ok { st with api_version := some v }
  | .model v =>
    if st.model.isSome then .error ("duplicate field `model`")
    else .ok { st with model := some v }
  | .maxTokens v =>
    if st.max_tokens.isSome then .error ("duplicate field `max_tokens`")
    else .ok { st with max_tokens := some v }
  | .temperature v =>
    if st.temperature.isSome then .error ("duplicate field `temperature`")
    else .ok { st with temperature := some v }
  | .stopSequences v =>
    if st.stop_sequences.isSome then .error ("duplicate field `stop_sequences`")
    else .ok { st with stop_sequences := some v }
  | .system v =>
    if st.system.isSome then .error ("duplicate field `system`")
    else .ok { st with system := some v }

/-- The visit_map key loop over the declared map entries in order. -/
def visitLoop (st : VisitState) : List ConfigField → Except String VisitState
  | [] => .ok st
  | f :: rest =>
    match visitStep st f with
    | .ok st2 => visitLoop st2 rest
    | .error e => .error e

/-- The tail of visit_map (lines 315-347): pick the variant from the
presence of api_key, require api_version and model, and fill the defaults
(max_tokens 1024, temperature 0.63, empty stop_sequences).  The bedrock
transport client construction is a derived resource and carries no data. -/
def visitFinish (st : VisitState) : Except String AnthropicModel :=
  match st.api_key with
  | some api_key =>
    match st.api_version with
    | none => .error ("missing field `api_version`")
    | some api_version =>
      match st.model with
      | none => .error ("missing field `model`")
      | some model =>
        .ok (.Anthropic api_key api_version model (st.max_tokens.getD 1024)
          (st.temperature.getD (63 / 100 : Rat)) (st.stop_sequences.getD [])
          st.system)
  | none =>
    match st.api_version with
    | none => .error ("missing field `api_version`")
    | some api_version =>
      match st.model with
      | none => .error ("missing field `model`")
      | some model =>
        .ok (.Bedrock st.aws_config api_version model (st.max_tokens.getD 1024)
          (st.temperature.getD (63 / 100 : Rat)) (st.stop_sequences.getD [])
          st.system)

/-- The whole custom Deserialize of AnthropicModel on a declared
configuration given as its ordered field entries. -/
def anthropicModelDeserialize (fields : List ConfigField) :
    Except String AnthropicModel :=
  match visitLoop {} fields with
  | .ok st => visitFinish st
  | .error e => .error e

/-- The facade enum LanguageModel of src/lib.rs, over its single variant. -/
inductive LanguageModelFacade where
  | Anthropic (m : AnthropicModel)
deriving DecidableEq, Repr

/-- The facade match of lib.rs lines 90-92: inference pattern-matches its
own variant, and the match expression evaluates to the configured adapter,
which then receives the call. -/
def LanguageModelFacade.adapter : LanguageModelFacade → AnthropicModel
  | .Anthropic m => m

/-- Every sextet value below 64 decodes back to itself. -/
theorem decodeChar_encodeChar : ∀ n : Nat, n < 64 → decodeChar (encodeChar n) = some n := by
  decide

/-- No alphabet character is the padding character. -/
theorem encodeChar_ne_pad : ∀ n : Nat, n < 64 → encodeChar n ≠ '=' := by
  decide

/-- Chunkwise base64 decoding inverts chunkwise encoding on byte lists. -/
theorem b64_chunks_roundtrip : ∀ bs : List Nat, (∀ x ∈ bs, x < 256) →
    base64DecodeChunks (base64EncodeChunks bs) = some bs
  | [], _ => rfl
  | [a], h => by
    have ha : a < 256 := h a (by simp)
    have h1 : decodeChar (encodeChar (a / 4)) = some (a / 4) :=
      decodeChar_encodeChar _ (by omega)
    have h2 : decodeChar (encodeChar (a % 4 * 16)) = some (a % 4 * 16) :=
      decodeChar_encodeChar _ (by omega)
    simp [base64EncodeChunks, base64DecodeChunks, h1, h2, Nat.mul_mod_left]
    omega
  | [a, b], h => by
    have ha : a < 256 := h a (by simp)
    have hb : b < 256 := h b (by simp)
    have h1 : decodeChar (encodeChar (a / 4)) = some (a / 4) :=
      decodeChar_encodeChar _ (by omega)
    have h2 : decodeChar (encodeChar (a % 4 * 16 + b / 16)) = some (a % 4 * 16 + b / 16) :=
      decodeChar_encodeChar _ (by omega)
    have h3 : decodeChar (encodeChar (b % 16 * 4)) = some (b % 16 * 4) :=
      decodeChar_encodeChar _ (by omega)
    have h3ne : encodeChar (b % 16 * 4) ≠ '=' := encodeChar_ne_pad _ (by omega)
    simp [base64EncodeChunks, base64DecodeChunks, h1, h2, h3, h3ne,
      Nat.mul_mod_left]
    omega
  | a :: b :: c :: rest, h => by
    have ha : a < 256 := h a (by simp)
    have hb : b < 256 := h b (by simp)
    have hc : c < 256 := h c (by simp)
    have h1 : decodeChar (encodeChar (a / 4)) = some (a / 4) :=
      decodeChar_encodeChar _ (by omega)
    have h2 : decodeChar (encodeChar (a % 4 * 16 + b / 16)) = some (a % 4 * 16 + b / 16) :=
      decodeChar_encodeChar _ (by omega)
    have h3 : decodeChar (encodeChar (b % 16 * 4 + c / 64)) = some (b % 16 * 4 + c / 64) :=
      decodeChar_encodeChar _ (by omega)
    have h4 : decodeChar (encodeChar (c % 64)) = some (c % 64) :=
      decodeChar_encodeChar _ (by omega)
    have h3ne : encodeChar (b % 16 * 4 + c / 64) ≠ '=' := encodeChar_ne_pad _ (by omega)
    have h4ne : encodeChar (c % 64) ≠ '=' := encodeChar_ne_pad _ (by omega)
    have ih : base64DecodeChunks (base64EncodeChunks rest) = some rest :=
      b64_chunks_roundtrip rest (fun x hx => h x (by simp [hx]))
    simp [base64EncodeChunks, base64DecodeChunks, h1, h2, h3, h4, h3ne, h4ne, ih]
    omega

/-- base64 decoding inverts base64 encoding on byte lists. -/
theorem base64_roundtrip (bs : List Nat) (h : ∀ x ∈ bs, x < 256) :
    base64Decode (base64Encode bs) = some bs :=
  b64_chunks_roundtrip bs h

/-- Whether the accumulator slot of a given field is still unset. -/
def slotNone (st : VisitState) : FieldKey → Bool
  | .apiKey => st.api_key.isNone
  | .awsConfig => st.aws_config.isNone
  | .apiVersion => st.api_version.isNone
  | .model => st.model.isNone
  | .maxTokens => st.max_tokens.isNone
  | .temperature => st.temperature.isNone
  | .stopSequences => st.stop_sequences.isNone
  | .system => st.system.isNone

/-- A visit_map step on a field other than api_key and aws_config whose slot
is unset succeeds, leaves the api_key and aws_config slots untouched, and
changes no slot but its own. -/
theorem visitStep_neutral (st : VisitState) (f : ConfigField)
    (hk1 : f.key ≠ .apiKey) (hk2 : f.key ≠ .awsConfig)
    (hslot : slotNone st f.key = true) :
    ∃ st2, visitStep st f = .ok st2 ∧
      st2.api_key = st.api_key ∧ st2.aws_config = st.aws_config ∧
      ∀ k, k ≠ f.key → slotNone st2 k = slotNone st k := by
  cases f with
  | apiKey v => exact absurd rfl hk1
  | awsConfig v => exact absurd rfl hk2
  | apiVersion v =>
    simp only [ConfigField.key, slotNone, Option.isNone_iff_eq_none] at hslot
    refine ⟨{ st with api_version := some v }, by simp [visitStep, hslot], rfl, rfl, ?_⟩
    intro k hk
    cases k <;> simp_all [slotNone, ConfigField.key]
  | model v =>
    simp only [ConfigField.key, slotNone, Option.isNone_iff_eq_none] at hslot
    refine ⟨{ st with model := some v }, by simp [visitStep, hslot], rfl, rfl, ?_⟩
    intro k hk
    cases k <;> simp_all [slotNone, ConfigField.key]
  | maxTokens v =>
    simp only [ConfigField.key, slotNone, Option.isNone_iff_eq_none] at hslot
    refine ⟨{ st with max_tokens := some v }, by simp [visitStep, hslot], rfl, rfl, ?_⟩
    intro k hk
    cases k <;> simp_all [slotNone, ConfigField.key]
  | temperature v =>
    simp only [ConfigField.key, slotNone, Option.isNone_iff_eq_none] at hslot
    refine ⟨{ st with temperature := some v }, by simp [visitStep, hslot], rfl, rfl, ?_⟩
    intro k hk
    cases k <;> simp_all [slotNone, ConfigField.key]
  | stopSequences v =>
    simp only [ConfigField.key, slotNone, Option.isNone_iff_eq_none] at hslot
    refine ⟨{ st with stop_sequences := some v }, by simp [visitStep, hslot], rfl, rfl, ?_⟩
    intro k hk
    cases k <;> simp_all [slotNone, ConfigField.key]
  | system v =>
    simp only [ConfigField.key, slotNone, Option.isNone_iff_eq_none] at hslot
    refine ⟨{ st with system := some v }, by simp [visitStep, hslot], rfl, rfl, ?_⟩
    intro k hk
    cases k <;> simp_all [slotNone, ConfigField.key]

/-- Once the api_key slot is set, a later aws_config entry makes the key
loop fail with the mutual-exclusivity message, provided the remaining
entries are duplicate-free and their slots are unset. -/
theorem visitLoop_err_awsConfig_after (fields : List ConfigField) : ∀ st : VisitState,
    st.api_key.isSome = true →
    (∀ k ∈ fields.map ConfigField.key, slotNone st k = true) →
    (fields.map ConfigField.key).Nodup →
    FieldKey.awsConfig ∈ fields.map ConfigField.key →
    visitLoop st fields = .error mutualMsg := by
  induction fields with
  | nil => intro st _ _ _ hmem; simp at hmem
  | cons f rest ih =>
    intro st hsome hslots hnodup hmem
    by_cases hfa : f.key = FieldKey.apiKey
    · have h0 := hslots f.key (by simp)
      rw [hfa] at h0
      simp only [slotNone, Option.isNone_iff_eq_none] at h0
      rw [h0] at hsome
      simp at hsome
    · by_cases hfw : f.key = FieldKey.awsConfig
      · obtain ⟨v, rfl⟩ : ∃ v, f = ConfigField.awsConfig v := by
          cases f <;> first | exact ⟨_, rfl⟩ | simp [ConfigField.key] at hfw
        simp [visitLoop, visitStep, hsome]
      · obtain ⟨st2, hstep, hak, haw, hpres⟩ :=
          visitStep_neutral st f hfa hfw (hslots f.key (by simp))
        have hnotin : f.key ∉ rest.map ConfigField.key := by
          simp only [List.map_cons, List.nodup_cons] at hnodup
          exact hnodup.1
        simp only [visitLoop, hstep]
        refine ih st2 (by rw [hak]; exact hsome) ?_ ?_ ?_
        · intro k hk
          have hne : k ≠ f.key := fun he => hnotin (he ▸ hk)
          rw [hpres k hne]
          exact hslots k (by simp [hk])
        · simp only [List.map_cons, List.nodup_cons] at hnodup
          exact hnodup.2
        · simp only [List.map_cons, List.mem_cons] at hmem
          rcases hmem with he | hm
          · exact absurd he.symm hfw
          · exact hm

/-- Once the aws_config slot is set, a later api_key entry makes the key
loop fail with the mutual-exclusivity message, provided the remaining
entries are duplicate-free and their slots are unset. -/
theorem visitLoop_err_apiKey_after (fields : List ConfigField) : ∀ st : VisitState,
    st.aws_config.isSome = true →
    (∀ k ∈ fields.map ConfigField.key, slotNone st k = true) →
    (fields.map ConfigField.key).Nodup →
    FieldKey.apiKey ∈ fields.map ConfigField.key →
    visitLoop st fields = .error mutualMsg := by
  induction fields with
  | nil => intro st _ _ _ hmem; simp at hmem
  | cons f rest ih =>
    intro st hsome hslots hnodup hmem
    by_cases hfw : f.key = FieldKey.awsConfig
    · have h0 := hslots f.key (by simp)
      rw [hfw] at h0
      simp only [slotNone, Option.isNone_iff_eq_none] at h0
      rw [h0] at hsome
      simp at hsome
    · by_cases hfa : f.key = FieldKey.apiKey
      · obtain ⟨v, rfl⟩ : ∃ v, f = ConfigField.apiKey v := by
          cases f <;> first | exact ⟨_, rfl⟩ | simp [ConfigField.key] at hfa
        simp [visitLoop, visitStep, hsome]
      · obtain ⟨st2, hstep, hak, haw, hpres⟩ :=
          visitStep_neutral st f hfa hfw (hslots f.key (by simp))
        have hnotin : f.key ∉ rest.map ConfigField.key := by
          simp only [List.map_cons, List.nodup_cons] at hnodup
          exact hnodup.1
        simp only [visitLoop, hstep]
        refine ih st2 (by rw [haw]; exact hsome) ?_ ?_ ?_
        · intro k hk
          have hne : k ≠ f.key := fun he => hnotin (he ▸ hk)
          rw [hpres k hne]
          exact hslots k (by simp [hk])
        · simp only [List.map_cons, List.nodup_cons] at hnodup
          exact hnodup.2
        · simp only [List.map_cons, List.mem_cons] at hmem
          rcases hmem with he | hm
          · exact absurd he.symm hfa
          · exact hm

/-- A duplicate-free declared configuration that carries both api_key and
aws_config makes the key loop fail with the mutual-exclusivity message,
whatever the order of the fields. -/
theorem visitLoop_err_both (fields : List ConfigField) : ∀ st : VisitState,
    (∀ k ∈ fields.map ConfigField.key, slotNone st k = true) →
    (fields.map ConfigField.key).Nodup →
    FieldKey.apiKey ∈ fields.map ConfigField.key →
    FieldKey.awsConfig ∈ fields.map ConfigField.key →
    visitLoop st fields = .error mutualMsg := by
  induction fields with
  | nil => intro st _ _ hmem _; simp at hmem
  | cons f rest ih =>
    intro st hslots hnodup hmemA hmemW
    have hnotin : f.key ∉ rest.map ConfigField.key := by
      simp only [List.map_cons, List.nodup_cons] at hnodup
      exact hnodup.1
    have hnodup' : (rest.map ConfigField.key).Nodup := by
      simp only [List.map_cons, List.nodup_cons] at hnodup
      exact hnodup.2
    by_cases hfa : f.key = FieldKey.apiKey
    · obtain ⟨v, rfl⟩ : ∃ v, f = ConfigField.apiKey v := by
        cases f <;> first | exact ⟨_, rfl⟩ | simp [ConfigField.key] at hfa
      have hA : st.api_key = none := by
        simpa [slotNone, Option.isNone_iff_eq_none] using
          hslots FieldKey.apiKey (by simp [ConfigField.key])
      have hW : st.aws_config = none := by
        simpa [slotNone, Option.isNone_iff_eq_none] using
          hslots FieldKey.awsConfig hmemW
      have hstep : visitStep st (ConfigField.apiKey v) =
          .ok { st with api_key := some v } := by
        simp [visitStep, hA, hW]
      simp only [visitLoop, hstep]
      refine visitLoop_err_awsConfig_after rest _ (by simp) ?_ hnodup' ?_
      · intro k hk
        have hne : k ≠ FieldKey.apiKey := by
          intro he
          exact hnotin (by simpa [ConfigField.key, he] using hk)
        have : slotNone { st with api_key := some v } k = slotNone st k := by
          cases k <;> first | exact absurd rfl hne | simp [slotNone]
        rw [this]
        exact hslots k (by simp [hk])
      · simp only [List.map_cons, List.mem_cons, ConfigField.key] at hmemW
        rcases hmemW with he | hm
        · exact absurd he (by simp)
        · exact hm
    · by_cases hfw : f.key = FieldKey.awsConfig
      · obtain ⟨v, rfl⟩ : ∃ v, f = ConfigField.awsConfig v := by
          cases f <;> first | exact ⟨_, rfl⟩ | simp [ConfigField.key] at hfw
        have hA : st.api_key = none := by
          simpa [slotNone, Option.isNone_iff_eq_none] using
            hslots FieldKey.apiKey hmemA
        have hW : st.aws_config = none := by
          simpa [slotNone, Option.isNone_iff_eq_none] using
            hslots FieldKey.awsConfig (by simp [ConfigField.key])
        have hstep : visitStep st (ConfigField.awsConfig v) =
            .ok { st with aws_config := some v } := by
          simp [visitStep, hA, hW]
        simp only [visitLoop, hstep]
        refine visitLoop_err_apiKey_after rest _ (by simp) ?_ hnodup' ?_
        · intro k hk
          have hne : k ≠ FieldKey.awsConfig := by
            intro he
            exact hnotin (by simpa [ConfigField.key, he] using hk)
          have : slotNone { st with aws_config := some v } k = slotNone st k := by
            cases k <;> first | exact absurd rfl hne | simp [slotNone]
          rw [this]
          exact hslots k (by simp [hk])
        · simp only [List.map_cons, List.mem_cons, ConfigField.key] at hmemA
          rcases hmemA with he | hm
          · exact absurd he (by simp)
          · exact hm
      · obtain ⟨st2, hstep, hak, haw, hpres⟩ :=
          visitStep_neutral st f hfa hfw (hslots f.key (by simp))
        simp only [visitLoop, hstep]
        refine ih st2 ?_ hnodup' ?_ ?_
        · intro k hk
          have hne : k ≠ f.key := fun he => hnotin (he ▸ hk)
          rw [hpres k hne]
          exact hslots k (by simp [hk])
        · simp only [List.map_cons, List.mem_cons] at hmemA
          rcases hmemA with he | hm
          · exact absurd he.symm hfa
          · exact hm
        · simp only [List.map_cons, List.mem_cons] at hmemW
          rcases hmemW with he | hm
          · exact absurd he.symm hfw
          · exact hm

/-- Every slot of the initial visit_map accumulator is unset. -/
theorem slotNone_init : ∀ k, slotNone {} k = true := by
  intro k
  cases k <;> rfl

/-- C1: the Model Facade match selects the configured adapter, but the
adapter's inference builds its content blocks from its own prompt text and
optional image arguments — the image first, then the text — and performs no
translation of a Prompt message list: the impl signature of
AnthropicModel::inference contradicts the trait signature of model.rs, so
the delegation the claim describes does not exist in the code. -/
theorem c1_adapter_content_blocks (m : AnthropicModel) (p : String) (img : Image) :
    (LanguageModelFacade.Anthropic m).adapter = m ∧
    inferenceContent p none = [AnthropicContent.Text p] ∧
    inferenceContent p (some img) =
      [AnthropicContent.Image (AnthropicImageContent.fromImage img),
       AnthropicContent.Text p] :=
  ⟨rfl, rfl, rfl⟩

/-- A concrete message envelope whose only content block is an image with an
undecodable base64 payload. -/
def c2Source : AnthropicImageContent :=
  { encoding := "base64", media_type := "image/png", data := "####" }

/-- The message envelope carrying c2Source as its first content block. -/
def c2Envelope : AnthropicMessageResponse :=
  { id := "msg_1", model := "claude", role := "assistant",
    stop_reason := "end_turn", stop_sequence := none,
    usage := { input_tokens := 1, output_tokens := 2 },
    content := [.Image c2Source] }

/-- C2 counterexample: the base64 payload "####" fails to decode, yet
inference returns Unexpected("no-content"), not the decode-typed error
(Error::ImageDecode) the claim names: the decode failure is collapsed to
None by .ok() and falls into the no-content branch. -/
theorem c2_counterexample :
    base64Decode c2Source.data = none ∧
    inference ("caption this") none (.ok 200 (.ok (.Message c2Envelope))) =
      .error (.Unexpected ("no-content")) ∧
    errIsImageDecode
      (inference ("caption this") none (.ok 200 (.ok (.Message c2Envelope)))) = false := by
  refine ⟨by decide, by rfl, by decide⟩

/-- C2 amended: a failure to decode the first image block's base64 payload
makes the whole inference call return Unexpected("no-content"); no
partially-decoded image Message is ever returned. -/
theorem c2_decode_failure_degrades (m : AnthropicMessageResponse)
    (source : AnthropicImageContent)
    (h1 : m.content.head? = some (.Image source))
    (h2 : base64Decode source.data = none) :
    inferenceClassify (.ok m) = .error (.Unexpected ("no-content")) := by
  simp [inferenceClassify, firstContentMessage, h1, h2]

/-- C2 witness: the amended theorem applied to the concrete envelope. -/
theorem c2_witness :
    c2Envelope.content.head? = some (.Image c2Source) ∧
    base64Decode c2Source.data = none ∧
    inferenceClassify (.ok c2Envelope) = .error (.Unexpected ("no-content")) :=
  ⟨rfl, by decide, c2_decode_failure_degrades c2Envelope c2Source rfl (by decide)⟩

/-- C3: a declared configuration that carries both api_key and aws_config
(each field of the map occurring once) fails decoding with the
mutual-exclusivity validation error whatever the order of its fields, and
never produces a backend variant. -/
theorem c3_both_fields_rejected (fields : List ConfigField)
    (hA : FieldKey.apiKey ∈ fields.map ConfigField.key)
    (hW : FieldKey.awsConfig ∈ fields.map ConfigField.key)
    (hnodup : (fields.map ConfigField.key).Nodup) :
    anthropicModelDeserialize fields = .error mutualMsg := by
  have h := visitLoop_err_both fields {} (fun k _ => slotNone_init k) hnodup hA hW
  simp [anthropicModelDeserialize, h]

/-- C3 witness: both orders of the offending pair are covered by the
theorem; this instance declares aws_config before api_key. -/
theorem c3_witness :
    (FieldKey.apiKey ∈ ([ConfigField.awsConfig (.Profile ("p") none),
        ConfigField.apiKey ("x"),
        ConfigField.apiVersion ("2023-06-01")].map ConfigField.key) ∧
     FieldKey.awsConfig ∈ ([ConfigField.awsConfig (.Profile ("p") none),
        ConfigField.apiKey ("x"),
        ConfigField.apiVersion ("2023-06-01")].map ConfigField.key) ∧
     (([ConfigField.awsConfig (.Profile ("p") none),
        ConfigField.apiKey ("x"),
        ConfigField.apiVersion ("2023-06-01")].map ConfigField.key)).Nodup) ∧
    anthropicModelDeserialize
      [ConfigField.awsConfig (.Profile ("p") none),
       ConfigField.apiKey ("x"),
       ConfigField.apiVersion ("2023-06-01")] = .error mutualMsg :=
  ⟨⟨by decide, by decide, by decide⟩,
   c3_both_fields_rejected _ (by decide) (by decide) (by decide)⟩

/-- C4: a successful round-trip whose decoded body is the error envelope
yields ModelResponse carrying the remote message verbatim, both at status
200 and at client or server error statuses. -/
theorem c4_error_envelope_verbatim (p : String) (img : Option Image)
    (e : AnthropicErrorResponse) :
    inference p img (.ok 200 (.ok (.Error e))) = .error (.ModelResponse e.message) ∧
    ∀ status : Nat, 400 ≤ status → status < 600 →
      inference p img (.ok status (.ok (.Error e))) =
        .error (.ModelResponse e.message) := by
  constructor
  · rfl
  · intro s h1 h2
    have h200 : (s == 200) = false := by
      simp only [beq_eq_false_iff_ne, ne_eq]
      omega
    have hrange : (decide (400 ≤ s) && decide (s < 600)) = true := by
      simp only [Bool.and_eq_true, decide_eq_true_eq]
      omega
    simp [inference, createClassify, inferenceClassify, h200, hrange]

/-- C4 witness: the remote message "busy" is preserved verbatim at status
200 and at status 429. -/
theorem c4_witness :
    (400 ≤ 429 ∧ 429 < 600) ∧
    inference ("p") none (.ok 200 (.ok (.Error
      { error_type := "overloaded_error", message := "busy" }))) =
      .error (.ModelResponse ("busy")) ∧
    inference ("p") none (.ok 429 (.ok (.Error
      { error_type := "overloaded_error", message := "busy" }))) =
      .error (.ModelResponse ("busy")) :=
  ⟨⟨by decide, by decide⟩,
   (c4_error_envelope_verbatim ("p") none
     { error_type := "overloaded_error", message := "busy" }).1,
   (c4_error_envelope_verbatim ("p") none
     { error_type := "overloaded_error", message := "busy" }).2 429
     (by decide) (by decide)⟩

/-- C5: a successful round-trip whose body decodes to a message envelope
with an empty content list yields Unexpected("no-content"). -/
theorem c5_empty_content_unexpected (p : String) (img : Option Image)
    (m : AnthropicMessageResponse) (h : m.content = []) :
    inference p img (.ok 200 (.ok (.Message m))) =
      .error (.Unexpected ("no-content")) := by
  simp [inference, createClassify, inferenceClassify, firstContentMessage, h]

/-- C5 witness: the theorem applied to a concrete empty-content envelope. -/
theorem c5_witness :
    ({ id := "msg_2", model := "claude", role := "assistant",
       stop_reason := "end_turn", stop_sequence := none,
       usage := { input_tokens := 3, output_tokens := 0 },
       content := [] } : AnthropicMessageResponse).content = ([] : List AnthropicContent) ∧
    inference ("hello") none (.ok 200 (.ok (.Message
      { id := "msg_2", model := "claude", role := "assistant",
        stop_reason := "end_turn", stop_sequence := none,
        usage := { input_tokens := 3, output_tokens := 0 },
        content := [] }))) = .error (.Unexpected ("no-content")) :=
  ⟨rfl, c5_empty_content_unexpected ("hello") none _ rfl⟩

/-- C6 counterexample: a transport failure is classified into the very same
Error value as a remote error envelope carrying the same message — there is
no dedicated Transport variant, so inference does not return one. -/
theorem c6_counterexample :
    inference ("p") none (.err ("connection reset by peer")) =
      .error (.ModelResponse ("connection reset by peer")) ∧
    inference ("p") none (.ok 200 (.ok (.Error
      { error_type := "overloaded_error",
        message := "connection reset by peer" }))) =
      .error (.ModelResponse ("connection reset by peer")) :=
  ⟨rfl, rfl⟩

/-- C6 amended: a transport-level failure makes create return an error
envelope tagged request_error (direct path) or bedrock_sdk_error (bedrock
path) carrying the formatted transport error, and inference surfaces it as
ModelResponse with that message; the Error type has no Transport variant. -/
theorem c6_transport_failure (p : String) (img : Option Image) (msg : String) :
    createClassify (.err msg) =
      .error { error_type := "request_error", message := msg } ∧
    bedrockClassify (.err msg) =
      .error { error_type := "bedrock_sdk_error", message := msg } ∧
    inference p img (.err msg) = .error (.ModelResponse msg) ∧
    inferenceClassify (bedrockClassify (.err msg)) =
      .error (.ModelResponse msg) :=
  ⟨rfl, rfl, rfl, rfl⟩

/-- C7: create collapses the new content by count: no new message when
empty, a single inline content block when exactly one, a list of exactly
the given blocks in order when two or more. -/
theorem c7_create_collapses_by_count (conversation : Option (List AnthropicMessage)) :
    createRequestMessages [] conversation = conversation.getD [] ∧
    (∀ m, createRequestMessages [m] conversation =
      conversation.getD [] ++ [{ role := "user", content := .Single m }]) ∧
    (∀ ms : List AnthropicContent, 2 ≤ ms.length →
      createRequestMessages ms conversation =
        conversation.getD [] ++ [{ role := "user", content := .Multiple ms }]) := by
  refine ⟨?_, ?_, ?_⟩
  · cases conversation <;> rfl
  · intro m
    cases conversation <;> rfl
  · intro ms hms
    match ms, hms with
    | a :: b :: t, _ => cases conversation <;> rfl

/-- C7 witness: the many-block arm of the theorem at two concrete blocks. -/
theorem c7_witness :
    2 ≤ ([AnthropicContent.Text ("a"), AnthropicContent.Text ("b")] : List AnthropicContent).length ∧
    createRequestMessages [AnthropicContent.Text ("a"), AnthropicContent.Text ("b")]
        (some [{ role := "assistant", content := .Single (.Text ("prev")) }]) =
      [{ role := "assistant", content := .Single (.Text ("prev")) },
       { role := "user",
         content := .Multiple [AnthropicContent.Text ("a"), AnthropicContent.Text ("b")] }] :=
  ⟨by decide,
   (c7_create_collapses_by_count
     (some [{ role := "assistant", content := .Single (.Text ("prev")) }])).2.2
     [AnthropicContent.Text ("a"), AnthropicContent.Text ("b")] (by decide)⟩

/-- C8: encoding an Image into the wire AnthropicImageContent and decoding
the resulting data field reproduces the original bytes exactly. -/
theorem c8_image_wire_roundtrip (media : String) (bs : List Nat)
    (h : ∀ x ∈ bs, x < 256) :
    (AnthropicImageContent.fromImage
      { media_type := media, data := bs }).decodeData = some bs := by
  simp only [AnthropicImageContent.fromImage, AnthropicImageContent.new,
    AnthropicImageContent.decodeData]
  exact base64_roundtrip bs h

/-- C8 witness: the round-trip at media type "image/png" and bytes
[0, 1, 2]. -/
theorem c8_witness :
    (∀ x ∈ ([0, 1, 2] : List Nat), x < 256) ∧
    (AnthropicImageContent.fromImage
      { media_type := "image/png", data := [0, 1, 2] }).decodeData =
      some [0, 1, 2] :=
  ⟨by decide, c8_image_wire_roundtrip ("image/png") [0, 1, 2] (by decide)⟩

/-- C9 counterexample: the rendering of a concrete image contains a space
after "base64," — it is not the exact string the claim gives. -/
theorem c9_counterexample :
    Image.display { media_type := "image/png", data := [0, 1, 2] } =
      "data:image/png;base64, AAEC" ∧
    Image.display { media_type := "image/png", data := [0, 1, 2] } ≠
      "data:image/png;base64,AAEC" := by
  refine ⟨by decide, by decide⟩

/-- C9 amended: an Image renders as "data:" + media type + ";base64, " +
base64 encoding of the bytes — with a single space after the comma — and a
Text content renders as its own text unchanged. -/
theorem c9_display_rendering (m : String) (bs : List Nat) (t : String) :
    Message.display (.Image { media_type := m, data := bs }) =
      "data:" ++ m ++ ";base64, " ++ base64Encode bs ∧
    Message.display (.Text t) = t :=
  ⟨rfl, rfl⟩

/-- C10: with a prior conversation supplied, the marshaled messages are
exactly the prior turns in their given order, followed by at most one new
user message holding exactly the new content blocks in order. -/
theorem c10_conversation_preserved (conv : List AnthropicMessage)
    (ms : List AnthropicContent) :
    ∃ rest, createRequestMessages ms (some conv) = conv ++ rest ∧
      ((ms = [] ∧ rest = []) ∨
        ∃ c, rest = [{ role := "user", content := c }] ∧
          AnthropicMessageContent.blocks c = ms) := by
  match ms with
  | [] =>
    exact ⟨[], by simp [createRequestMessages], Or.inl ⟨rfl, rfl⟩⟩
  | [m] =>
    exact ⟨[{ role := "user", content := .Single m }], rfl,
      Or.inr ⟨.Single m, rfl, rfl⟩⟩
  | a :: b :: t =>
    exact ⟨[{ role := "user", content := .Multiple (a :: b :: t) }], rfl,
      Or.inr ⟨.Multiple (a :: b :: t), rfl, rfl⟩⟩

end AprilCore
